import Mathlib

/-!
Verification of the Cedar-OS streaming client
(`src/frontend/lib/cedar-stream.ts`, class `CedarStreamService`).

The development is a shallow embedding of the client: the mutable fields of
the class become a `StreamState` record, each method becomes a state
transformer, and the browser callbacks (`onopen`, `onerror`, `onmessage`,
timer firings) become explicit transition functions.  Values produced by
`JSON.parse` are embedded as the inductive `JVal`; JavaScript field access,
truthiness and the `||` default operator are embedded by `fieldOf`,
`jsTruthy` and `jsOr`.  Subscriber callbacks are embedded as functions
returning `Except String Unit`, where `Except.error` models a callback that
throws; the `try`/`catch` wrapped around each callback invocation in the
source is what makes the embedded dispatch loop total.  Lifecycle
emissions (`emit`) are recorded in an `emitted` trace field; the source
delivery loop for lifecycle listeners is the same `forEach`/`try`/`catch`
shape as the channel dispatch loop and is covered by the dispatch theorem.

Numbers that the source manipulates with JavaScript floating point
(latency samples and their mean) are embedded as rationals; the claims
settled about them concern which samples enter the mean and the
empty-buffer case, not floating-point rounding.
-/

namespace CedarStream

/-- Values that `JSON.parse` can produce.  JavaScript `undefined` is not a
parse result; absence of an object key is represented by `Option` at the
access site. -/
inductive JVal where
  | null : JVal
  | bool (b : Bool) : JVal
  | num (q : ℚ) : JVal
  | str (s : String) : JVal
  | arr (elems : List JVal) : JVal
  | obj (fields : List (String × JVal)) : JVal

/-- Reading key `k` of a JavaScript value that is not `null`: an object
yields its first binding for `k` (`JSON.parse` never produces duplicate
keys), every other non-null value yields `undefined`, embedded as `none`.
Reading a key of `null` throws in JavaScript; call sites guard for it. -/
def fieldOf : JVal → String → Option JVal
  | .obj fields, k => (fields.find? (fun p => p.1 = k)).map (fun p => p.2)
  | _, _ => none

/-- JavaScript truthiness of a parsed value: `null`, `false`, `0` and the
empty string are falsy, everything else (including `[]` and `{}`) truthy. -/
def jsTruthy : JVal → Bool
  | .null => false
  | .bool b => b
  | .num q => if q = 0 then false else true
  | .str s => if s = "" then false else true
  | .arr _ => true
  | .obj _ => true

/-- JavaScript `x || d` on a possibly-undefined field read: the field value
when present and truthy, the default otherwise. -/
def jsOr (o : Option JVal) (d : JVal) : JVal :=
  match o with
  | some v => if jsTruthy v then v else d
  | none => d

/-- Whether an optional field read produced a string (the `typeof` check). -/
def isStrOpt : Option JVal → Bool
  | some (.str _) => true
  | _ => false

/-- Whether `d.type` is exactly the string `v` (`data.type === v`). -/
def isTypeEq (d : JVal) (v : String) : Bool :=
  match fieldOf d "type" with
  | some (.str t) => t = v
  | _ => false

/-- Whether the value is JavaScript `null` (the one parse result on which
legacy decoding throws a `TypeError`). -/
def jvIsNull : JVal → Bool
  | .null => true
  | _ => false

/-- Guard `CedarStreamService.isCedarEvent` (cedar-stream.ts:289-295): the value
must be truthy, `type`, `channel` and `timestamp` must be strings and the
`data` key must not be `undefined`. -/
def isCedarEvent (d : JVal) : Bool :=
  jsTruthy d && isStrOpt (fieldOf d "type") && isStrOpt (fieldOf d "channel")
    && (fieldOf d "data").isSome && isStrOpt (fieldOf d "timestamp")

/-- Modelled from the spec words of the native-shape criterion, for
comparison with `isCedarEvent`: string-typed `type` and `channel`, a
non-undefined payload, and a string-typed `timestamp`.  The spec treats
`payload` and `data` as synonyms during decode; the payload key is `data`. -/
def nativeShapeSpec (d : JVal) : Bool :=
  isStrOpt (fieldOf d "type") && isStrOpt (fieldOf d "channel")
    && (fieldOf d "data").isSome && isStrOpt (fieldOf d "timestamp")

/-- A decoded event as dispatched to channel handlers (`CedarEvent` in
the cedar-stream types file).  `type` and `timestamp` keep their raw JavaScript
values because the legacy decoder copies them through untyped; `data` is
`none` when the source object stored `undefined` there. -/
structure CedarEv where
  type : JVal
  channel : String
  data : Option JVal
  timestamp : JVal
  source : Option JVal

/-- View of a native-shaped value as the event handed to
`processCedarEvent` (the source passes the parsed object through as-is;
only the fields of the `CedarEvent` interface are observable here). -/
def toCedarEv (d : JVal) : CedarEv :=
  { type := (fieldOf d "type").getD .null
    channel := match fieldOf d "channel" with
      | some (.str c) => c
      | _ => ""
    data := fieldOf d "data"
    timestamp := (fieldOf d "timestamp").getD .null
    source := fieldOf d "source" }

/-- Decoder `CedarStreamService.processLegacyEvent` (cedar-stream.ts:255-287), as a
decoder.  `now` stands for `new Date().toISOString()`.  Reading `data.type`
of `null` throws a `TypeError`, embedded as `Except.error`.  In the
`transaction` and `notification_popup` branches the guard pins `data.type`
to that exact string; the generic branch defaults a falsy `type` to
`"unknown"`, wraps the whole value as payload, and always synthesizes the
timestamp. -/
def legacyDecode (now : String) (d : JVal) : Except Unit CedarEv :=
  if jvIsNull d then .error ()
  else if isTypeEq d "transaction" then
    .ok { type := .str "transaction", channel := "transactions"
          data := fieldOf d "data"
          timestamp := jsOr (fieldOf d "timestamp") (.str now)
          source := some (.str "legacy-websocket") }
  else if isTypeEq d "notification_popup" then
    .ok { type := .str "notification_popup", channel := "notifications"
          data := fieldOf d "data"
          timestamp := jsOr (fieldOf d "timestamp") (.str now)
          source := some (.str "legacy-websocket") }
  else
    .ok { type := jsOr (fieldOf d "type") (.str "unknown"), channel := "system"
          data := some d
          timestamp := .str now
          source := some (.str "legacy-websocket") }

/-- The fixed legacy type-to-channel mapping, named for use in statements. -/
def legacyChannelOf (d : JVal) : String :=
  if isTypeEq d "transaction" then "transactions"
  else if isTypeEq d "notification_popup" then "notifications"
  else "system"

/-- A channel subscriber callback.  `Except.error msg` embeds a callback
that throws; the source wraps every invocation in `try`/`catch`. -/
def Handler : Type := CedarEv → Except String Unit

/-- The `channelHandlers` map: channel name to handler list in registration
order.  Keys are unique because entries are only created by `subscribe`. -/
def ChannelMap : Type := List (String × List Handler)

/-- Lookup (`Map.get`) on the channel map. -/
def lookupChannel : ChannelMap → String → Option (List Handler)
  | [], _ => none
  | (c', hs) :: rest, c => if c' = c then some hs else lookupChannel rest c

/-- Operation `subscribe` on the raw map (cedar-stream.ts:120-126): create the entry
if absent, then push the handler at the end. -/
def addToChannel : ChannelMap → String → Handler → ChannelMap
  | [], c, h => [(c, [h])]
  | (c', hs) :: rest, c, h =>
      if c' = c then (c', hs ++ [h]) :: rest
      else (c', hs) :: addToChannel rest c h

/-- The `handlers.forEach(h => { try { h(event) } catch ... })` loop of
`processCedarEvent` (cedar-stream.ts:244-253): every handler is invoked,
its thrown exception (an `Except.error` result) is caught and recorded,
and the loop continues with the remaining handlers. -/
def runHandlers : List Handler → CedarEv → List (Except String Unit)
  | [], _ => []
  | h :: rest, e => h e :: runHandlers rest e

/-- Connection status (`CedarStreamStatus`). -/
inductive Status where
  | disconnected : Status
  | connecting : Status
  | connected : Status
  | reconnecting : Status
  | error : Status
deriving DecidableEq

/-- One recorded lifecycle emission (`emit` calls), with the payload parts
the claims observe. -/
inductive EmitEv where
  | connectEv : EmitEv
  | disconnectEv : EmitEv
  | reconnectEv (attempt : Nat) : EmitEv
  | errorEv : EmitEv
  | statusChangeEv (fromStatus toStatus : Status) : EmitEv
deriving DecidableEq

/-- The mutable fields of `CedarStreamService`.  Timer handles become
Booleans (pending / not pending), the `EventSource` reference becomes a
Boolean (constructed / null), and lifecycle emissions are recorded in the
`emitted` trace. -/
structure StreamState where
  maxReconnectAttempts : Nat
  status : Status := .disconnected
  reconnectAttempts : Nat := 0
  reconnectTimer : Bool := false
  heartbeatTimer : Bool := false
  eventSource : Bool := false
  messagesReceived : Nat := 0
  messagesProcessed : Nat := 0
  errorsCount : Nat := 0
  lastMessageTime : String := ""
  latencyHistory : List ℚ := []
  channelHandlers : ChannelMap := []
  emitted : List EmitEv := []

/-- A freshly constructed service with `maxReconnectAttempts := k` in its
config (the constructor merges defaults; `k` is the merged value). -/
def initState (k : Nat) : StreamState := { maxReconnectAttempts := k }

/-- Method `emit` (cedar-stream.ts:372-381), observed through the trace.  The
per-listener delivery loop is the same `forEach`/`try`/`catch` shape as
`runHandlers`. -/
def emitE (s : StreamState) (e : EmitEv) : StreamState :=
  { s with emitted := s.emitted ++ [e] }

/-- Method `setStatus` (cedar-stream.ts:363-370): update and emit `status_change`
only when the status actually changes. -/
def setStatus (s : StreamState) (st : Status) : StreamState :=
  if s.status = st then s
  else emitE { s with status := st } (.statusChangeEv s.status st)

/-- Method `startHeartbeat` (cedar-stream.ts:340-349): a no-op when a heartbeat
timer is already running. -/
def startHeartbeat (s : StreamState) : StreamState :=
  if s.heartbeatTimer then s else { s with heartbeatTimer := true }

/-- Method `scheduleReconnect` (cedar-stream.ts:319-338): a no-op when a reconnect
timer is already pending; otherwise enter `reconnecting`, increment the
attempt counter, arm the timer and emit `reconnect` with the new count. -/
def scheduleReconnect (s : StreamState) : StreamState :=
  if s.reconnectTimer then s
  else
    let s1 := setStatus s .reconnecting
    let s2 := { s1 with reconnectAttempts := s1.reconnectAttempts + 1,
                        reconnectTimer := true }
    emitE s2 (.reconnectEv s2.reconnectAttempts)

/-- The `this.config.maxReconnectAttempts || 5` read in `handleError`: a
configured value of `0` is falsy in JavaScript and falls back to `5`. -/
def effectiveMaxReconnects (k : Nat) : Nat :=
  if k = 0 then 5 else k

/-- Method `handleError` (cedar-stream.ts:297-317): count the error, enter the
`error` status, emit `error`, then schedule a reconnect only while the
attempt counter is below the configured maximum. -/
def handleError (s : StreamState) : StreamState :=
  let s1 := { s with errorsCount := s.errorsCount + 1 }
  let s2 := setStatus s1 .error
  let s3 := emitE s2 .errorEv
  if s3.reconnectAttempts < effectiveMaxReconnects s3.maxReconnectAttempts then
    scheduleReconnect s3
  else s3

/-- How the promise returned by `connect()` settles. -/
inductive ConnectOutcome where
  | resolved : ConnectOutcome
  | rejected : ConnectOutcome
deriving DecidableEq

/-- Result of a `connect()` call: the state when its promise settles, the
settlement, and whether an underlying transport construction was issued. -/
structure ConnectResult where
  state : StreamState
  outcome : ConnectOutcome
  attempted : Bool

/-- Method `connect` (cedar-stream.ts:45-96).  The method returns (resolving its
promise) as soon as the handlers are attached to the freshly constructed
`EventSource`; the async body contains no await, so the promise does not
wait for `onopen`.  `ctorOk` is whether `new URL`/`new EventSource` succeed;
when they throw, the `catch` block runs `handleError` and rethrows, so the
promise rejects. -/
def connect (s : StreamState) (ctorOk : Bool) : ConnectResult :=
  if s.status = .connected ∨ s.status = .connecting then
    { state := s, outcome := .resolved, attempted := false }
  else
    let s1 := setStatus s .connecting
    if ctorOk then
      { state := { s1 with eventSource := true }, outcome := .resolved,
        attempted := true }
    else
      { state := handleError s1, outcome := .rejected, attempted := true }

/-- The `onopen` callback (cedar-stream.ts:65-71): enter `connected`, reset
the attempt counter, start the heartbeat, emit `connect`. -/
def openSucceeded (s : StreamState) : StreamState :=
  let s1 := setStatus s .connected
  let s2 := { s1 with reconnectAttempts := 0 }
  emitE (startHeartbeat s2) .connectEv

/-- Method `disconnect` (cedar-stream.ts:98-118): clear both timers, close the
transport, enter `disconnected`, emit `disconnect`. -/
def disconnect (s : StreamState) : StreamState :=
  let s1 := { s with reconnectTimer := false, heartbeatTimer := false,
                     eventSource := false }
  emitE (setStatus s1 .disconnected) .disconnectEv

/-- The reconnect timer firing (the `setTimeout` body, cedar-stream.ts:
330-335): clear the handle, call `connect` and swallow its rejection. -/
def fireReconnectTimer (s : StreamState) (ctorOk : Bool) : StreamState :=
  if s.reconnectTimer then (connect { s with reconnectTimer := false } ctorOk).state
  else s

/-- Method `subscribe` (cedar-stream.ts:120-126). -/
def subscribe (s : StreamState) (c : String) (h : Handler) : StreamState :=
  { s with channelHandlers := addToChannel s.channelHandlers c h }

/-- Method `processCedarEvent` (cedar-stream.ts:244-253): look up the handlers of
the event channel (empty when none) and run them all, catching throws. -/
def processCedarEvent (s : StreamState) (e : CedarEv) :
    StreamState × List (Except String Unit) :=
  ((s, runHandlers ((lookupChannel s.channelHandlers e.channel).getD []) e))

/-- Method `recordLatency` (cedar-stream.ts:383-390): push the sample, then drop
the oldest when the history exceeds 100 entries. -/
def recordLatency (h : List ℚ) (x : ℚ) : List ℚ :=
  let h2 := h ++ [x]
  if 100 < h2.length then h2.drop 1 else h2

/-- Method `calculateAverageLatency` (cedar-stream.ts:392-399): 0 on an empty
history, otherwise the sum divided by the length. -/
def calculateAverageLatency (h : List ℚ) : ℚ :=
  if h.length = 0 then 0 else h.sum / (h.length : ℚ)

/-- Method `handleMessage` (cedar-stream.ts:195-218).  `parsed` is the result of
`JSON.parse` (`none` when it threw), `now` the current ISO time, `elapsed`
the measured processing latency.  The whole body sits in one `try`: a
throw inside legacy decoding lands in the same `catch` that counts parse
failures, after `messagesReceived` was already incremented. -/
def handleMessage (s : StreamState) (parsed : Option JVal) (now : String)
    (elapsed : ℚ) : StreamState :=
  match parsed with
  | none => { s with errorsCount := s.errorsCount + 1 }
  | some d =>
    let s1 := { s with messagesReceived := s.messagesReceived + 1,
                       lastMessageTime := now }
    if isCedarEvent d then
      let s2 := (processCedarEvent s1 (toCedarEv d)).1
      { s2 with messagesProcessed := s2.messagesProcessed + 1,
                latencyHistory := recordLatency s2.latencyHistory elapsed }
    else
      match legacyDecode now d with
      | .error _ => { s1 with errorsCount := s1.errorsCount + 1 }
      | .ok ev =>
        let s2 := (processCedarEvent s1 ev).1
        { s2 with messagesProcessed := s2.messagesProcessed + 1,
                  latencyHistory := recordLatency s2.latencyHistory elapsed }

/-- The externally triggerable transitions of the client, for statements
that quantify over arbitrary operation sequences. -/
inductive Op where
  | message (parsed : Option JVal) (now : String) (elapsed : ℚ) : Op
  | transportError : Op
  | connectCall (ctorOk : Bool) : Op
  | openOk : Op
  | disconnectCall : Op
  | timerFire (ctorOk : Bool) : Op
  | subscribeCall (c : String) (h : Handler) : Op

/-- Apply one transition. -/
def applyOp (s : StreamState) : Op → StreamState
  | .message p n e => handleMessage s p n e
  | .transportError => handleError s
  | .connectCall ok => (connect s ok).state
  | .openOk => openSucceeded s
  | .disconnectCall => disconnect s
  | .timerFire ok => fireReconnectTimer s ok
  | .subscribeCall c h => subscribe s c h

/-- Run a sequence of transitions from a fresh client. -/
def runOps (k : Nat) (ops : List Op) : StreamState :=
  ops.foldl applyOp (initState k)

/-- One consecutive open failure: the pending reconnect timer (if any)
fires and reissues `connect`, whose transport then reports `onerror`. -/
def failureStep (s : StreamState) : StreamState :=
  handleError (fireReconnectTimer s true)

/-- State after an initial `connect()` followed by `n` consecutive open
failures, on a client configured with `maxReconnectAttempts := k`. -/
def afterFailures (k : Nat) : Nat → StreamState
  | 0 => (connect (initState k) true).state
  | n + 1 => failureStep (afterFailures k n)

/-- A concrete well-behaved subscriber, for concrete evaluations. -/
def hOk : Handler := fun _ => .ok ()

/-- A concrete subscriber that throws, for concrete evaluations. -/
def hBoom : Handler := fun _ => .error "handler exploded"

/-- A concrete native-shaped event on the `notifications` channel. -/
def eNotif : CedarEv :=
  { type := .str "notification_popup", channel := "notifications",
    data := some (.obj []), timestamp := .str "2024-01-01T00:00:00Z",
    source := none }

/-- A concrete legacy frame with an unrecognized type and an explicit
inbound timestamp. -/
def dGen : JVal :=
  .obj [("type", .str "system_status"),
        ("timestamp", .str "2020-01-01T00:00:00Z")]

/-- A concrete legacy `transaction` frame with an inbound timestamp. -/
def dTxn : JVal :=
  .obj [("type", .str "transaction"),
        ("timestamp", .str "2021-05-05T05:05:05Z"), ("data", .num 1)]

/- Helper lemmas about the state transformers. -/

theorem setStatus_status (s : StreamState) (st : Status) :
    (setStatus s st).status = st := by
  unfold setStatus emitE
  split
  case isTrue h => exact h
  case isFalse h => rfl

theorem setStatus_heartbeat (s : StreamState) (st : Status) :
    (setStatus s st).heartbeatTimer = s.heartbeatTimer := by
  unfold setStatus emitE; split <;> rfl

theorem setStatus_reconnectTimer (s : StreamState) (st : Status) :
    (setStatus s st).reconnectTimer = s.reconnectTimer := by
  unfold setStatus emitE; split <;> rfl

theorem setStatus_attempts (s : StreamState) (st : Status) :
    (setStatus s st).reconnectAttempts = s.reconnectAttempts := by
  unfold setStatus emitE; split <;> rfl

theorem setStatus_max (s : StreamState) (st : Status) :
    (setStatus s st).maxReconnectAttempts = s.maxReconnectAttempts := by
  unfold setStatus emitE; split <;> rfl

theorem setStatus_received (s : StreamState) (st : Status) :
    (setStatus s st).messagesReceived = s.messagesReceived := by
  unfold setStatus emitE; split <;> rfl

theorem setStatus_processed (s : StreamState) (st : Status) :
    (setStatus s st).messagesProcessed = s.messagesProcessed := by
  unfold setStatus emitE; split <;> rfl

theorem scheduleReconnect_heartbeat (s : StreamState) :
    (scheduleReconnect s).heartbeatTimer = s.heartbeatTimer := by
  unfold scheduleReconnect emitE
  split
  case isTrue h => rfl
  case isFalse h => exact setStatus_heartbeat s .reconnecting

theorem handleError_heartbeat (s : StreamState) :
    (handleError s).heartbeatTimer = s.heartbeatTimer := by
  unfold handleError emitE
  dsimp only
  split
  case isTrue h =>
    rw [scheduleReconnect_heartbeat]
    exact setStatus_heartbeat _ .error
  case isFalse h =>
    exact setStatus_heartbeat _ .error

theorem jvIsNull_false_of_ne {d : JVal} (h : d ≠ .null) :
    jvIsNull d = false := by
  cases d
  case null => exact absurd rfl h
  all_goals rfl

theorem legacyDecode_ok_of_ne_null {d : JVal} (h : d ≠ .null)
    (now : String) : ∃ ev, legacyDecode now d = .ok ev := by
  unfold legacyDecode
  rw [jvIsNull_false_of_ne h]
  simp only [Bool.false_eq_true, if_false]
  split_ifs <;> exact ⟨_, rfl⟩

theorem isCedarEvent_eq_spec (d : JVal) :
    isCedarEvent d = nativeShapeSpec d := by
  cases d <;>
    simp [isCedarEvent, nativeShapeSpec, jsTruthy, fieldOf, isStrOpt]

/-- C7: `connect()` is idempotent.  When the status is already `connected`
or `connecting`, the call returns the state unchanged, its promise
resolves immediately, and no underlying transport construction is issued. -/
theorem connect_idempotent (s : StreamState) (ctorOk : Bool)
    (h : s.status = .connected ∨ s.status = .connecting) :
    connect s ctorOk =
      { state := s, outcome := .resolved, attempted := false } := by
  unfold connect
  rw [if_pos h]

theorem connect_idempotent_witness :
    connect { initState 5 with status := Status.connected } true =
      { state := { initState 5 with status := Status.connected },
        outcome := .resolved, attempted := false } :=
  connect_idempotent { initState 5 with status := Status.connected } true
    (Or.inl rfl)

/-- C3, counterexample: on a fresh client with a well-formed endpoint, the
promise returned by `connect()` resolves with the status still
`connecting` — the open outcome is still pending at resolution time, so
the claim that it resolves only after the transport reported open
(status `connected`) is false.  The async body of `connect` contains no
await; it returns right after constructing the transport. -/
theorem connect_resolves_while_connecting_counterexample :
    (connect (initState 5) true).outcome = .resolved ∧
    (connect (initState 5) true).state.status = .connecting ∧
    Status.connecting ≠ Status.connected :=
  ⟨rfl, rfl, by decide⟩

/-- C3 (amended): from any state in which `connect()` does not take the
idempotent early return, the returned promise rejects when the endpoint
is malformed or the transport cannot be constructed, and otherwise
resolves as soon as the transport is constructed, while the open outcome
is still pending (status `connecting`, not `connected`). -/
theorem connect_settlement (s : StreamState) (h1 : s.status ≠ .connected)
    (h2 : s.status ≠ .connecting) :
    (connect s false).outcome = .rejected ∧
    (connect s true).outcome = .resolved ∧
    (connect s true).state.status = .connecting ∧
    (connect s true).attempted = true := by
  have hcond : ¬(s.status = .connected ∨ s.status = .connecting) := by
    intro hc
    cases hc with
    | inl h => exact h1 h
    | inr h => exact h2 h
  refine ⟨?_, ?_, ?_, ?_⟩
  · unfold connect
    rw [if_neg hcond]
    rfl
  · unfold connect
    rw [if_neg hcond]
    rfl
  · unfold connect
    rw [if_neg hcond]
    exact setStatus_status s .connecting
  · unfold connect
    rw [if_neg hcond]
    rfl

theorem connect_settlement_witness :
    (connect (initState 5) false).outcome = .rejected ∧
    (connect (initState 5) true).outcome = .resolved ∧
    (connect (initState 5) true).state.status = .connecting ∧
    (connect (initState 5) true).attempted = true :=
  connect_settlement (initState 5) (by decide) (by decide)

/-- C4, counterexample: on a connected client with the heartbeat timer
running, a transport error (which enters `error` and then `reconnecting`)
leaves the heartbeat timer running — the code never stops the heartbeat
on entering `error`/`reconnecting`, only `disconnect` clears it. -/
theorem heartbeat_survives_error_counterexample :
    (openSucceeded (connect (initState 5) true).state).heartbeatTimer
        = true ∧
    (handleError (openSucceeded (connect (initState 5) true).state)).status
        = .reconnecting ∧
    (handleError
        (openSucceeded (connect (initState 5) true).state)).heartbeatTimer
        = true :=
  ⟨rfl, rfl, rfl⟩

/-- C4 (amended): the heartbeat timer is stopped on `disconnect()`, and
starting the heartbeat while a timer is already running is a no-op that
creates no second timer; entering `error` or `reconnecting` (via
`handleError`/`scheduleReconnect`) does not stop the timer — it keeps its
previous state there. -/
theorem heartbeat_timer_policy (s : StreamState) :
    (disconnect s).heartbeatTimer = false ∧
    (s.heartbeatTimer = true → startHeartbeat s = s) ∧
    (handleError s).heartbeatTimer = s.heartbeatTimer ∧
    (scheduleReconnect s).heartbeatTimer = s.heartbeatTimer := by
  refine ⟨?_, ?_, handleError_heartbeat s, scheduleReconnect_heartbeat s⟩
  · unfold disconnect emitE
    dsimp only
    rw [setStatus_heartbeat]
  · intro h
    unfold startHeartbeat
    rw [if_pos h]

theorem heartbeat_timer_policy_witness :
    (disconnect { initState 5 with heartbeatTimer := true }).heartbeatTimer
        = false ∧
    startHeartbeat { initState 5 with heartbeatTimer := true }
        = { initState 5 with heartbeatTimer := true } ∧
    (handleError { initState 5 with heartbeatTimer := true }).heartbeatTimer
        = ({ initState 5 with heartbeatTimer := true } : StreamState).heartbeatTimer ∧
    (scheduleReconnect
        { initState 5 with heartbeatTimer := true }).heartbeatTimer
        = ({ initState 5 with heartbeatTimer := true } : StreamState).heartbeatTimer :=
  ⟨(heartbeat_timer_policy _).1, (heartbeat_timer_policy _).2.1 rfl,
   (heartbeat_timer_policy _).2.2.1, (heartbeat_timer_policy _).2.2.2⟩

/-- C9: every `disconnect()` call, including a redundant one made while
already `disconnected`, appends a `disconnect` lifecycle emission, and a
`status_change` emission is appended exactly when the status actually
changes; a redundant `disconnect()` therefore emits `disconnect` but no
`status_change`.  Each emission reaches every registered lifecycle
listener through the same caught `forEach` loop embedded as
`runHandlers`. -/
theorem disconnect_emission (s : StreamState) :
    (disconnect s).emitted =
      s.emitted ++
        (if s.status = .disconnected then []
         else [EmitEv.statusChangeEv s.status .disconnected]) ++
        [EmitEv.disconnectEv] ∧
    (disconnect s).status = .disconnected := by
  constructor
  · unfold disconnect setStatus emitE
    dsimp only
    by_cases h : s.status = .disconnected
    · rw [if_pos h, if_pos h]
      simp
    · rw [if_neg h, if_neg h]
  · unfold disconnect emitE
    dsimp only
    rw [setStatus_status]

theorem scheduleReconnect_max (s : StreamState) :
    (scheduleReconnect s).maxReconnectAttempts = s.maxReconnectAttempts := by
  unfold scheduleReconnect emitE
  dsimp only
  split
  · rfl
  · exact setStatus_max s .reconnecting

theorem scheduleReconnect_not_pending (s : StreamState)
    (h : s.reconnectTimer = false) :
    (scheduleReconnect s).status = .reconnecting ∧
    (scheduleReconnect s).reconnectTimer = true ∧
    (scheduleReconnect s).reconnectAttempts = s.reconnectAttempts + 1 := by
  unfold scheduleReconnect emitE
  dsimp only
  rw [h]
  simp only [Bool.false_eq_true, if_false]
  refine ⟨setStatus_status s .reconnecting, ?_,
    congrArg (· + 1) (setStatus_attempts s .reconnecting)⟩
  trivial

theorem handleError_transition (s : StreamState) :
    (handleError s).maxReconnectAttempts = s.maxReconnectAttempts ∧
    (s.reconnectTimer = false →
      s.reconnectAttempts < effectiveMaxReconnects s.maxReconnectAttempts →
      (handleError s).status = .reconnecting ∧
      (handleError s).reconnectTimer = true ∧
      (handleError s).reconnectAttempts = s.reconnectAttempts + 1) ∧
    (¬ s.reconnectAttempts < effectiveMaxReconnects s.maxReconnectAttempts →
      (handleError s).status = .error ∧
      (handleError s).reconnectTimer = s.reconnectTimer ∧
      (handleError s).reconnectAttempts = s.reconnectAttempts) := by
  unfold handleError
  dsimp only
  set s3 := emitE
    (setStatus { s with errorsCount := s.errorsCount + 1 } Status.error)
    EmitEv.errorEv with hs3
  have h3a : s3.reconnectAttempts = s.reconnectAttempts := by
    rw [hs3]
    unfold emitE
    dsimp only
    rw [setStatus_attempts]
  have h3m : s3.maxReconnectAttempts = s.maxReconnectAttempts := by
    rw [hs3]
    unfold emitE
    dsimp only
    rw [setStatus_max]
  have h3t : s3.reconnectTimer = s.reconnectTimer := by
    rw [hs3]
    unfold emitE
    dsimp only
    rw [setStatus_reconnectTimer]
  have h3s : s3.status = .error := by
    rw [hs3]
    unfold emitE
    dsimp only
    rw [setStatus_status]
  rw [h3a, h3m]
  split_ifs with hlt
  · refine ⟨?_, ?_, ?_⟩
    · rw [scheduleReconnect_max, h3m]
    · intro hp _
      have hres := scheduleReconnect_not_pending s3 (h3t.trans hp)
      exact ⟨hres.1, hres.2.1, by rw [hres.2.2, h3a]⟩
    · intro hno
      exact absurd hlt hno
  · refine ⟨h3m, ?_, ?_⟩
    · intro _ hyes
      exact absurd hyes hlt
    · intro _
      exact ⟨h3s, h3t, h3a⟩

theorem fireReconnectTimer_pending (s : StreamState)
    (h : s.reconnectTimer = true) (ok : Bool) :
    fireReconnectTimer s ok = (connect { s with reconnectTimer := false } ok).state := by
  unfold fireReconnectTimer
  rw [h]
  rfl

theorem connect_proceeds (s : StreamState) (h1 : s.status ≠ .connected)
    (h2 : s.status ≠ .connecting) :
    (connect s true).state = { setStatus s .connecting with eventSource := true } := by
  have hcond : ¬(s.status = .connected ∨ s.status = .connecting) := by
    intro hc
    cases hc with
    | inl h => exact h1 h
    | inr h => exact h2 h
  unfold connect
  rw [if_neg hcond]
  rfl

theorem failureStep_from_reconnecting (s : StreamState)
    (h1 : s.status = .reconnecting) (h2 : s.reconnectTimer = true) :
    (failureStep s).maxReconnectAttempts = s.maxReconnectAttempts ∧
    (s.reconnectAttempts < effectiveMaxReconnects s.maxReconnectAttempts →
      (failureStep s).status = .reconnecting ∧
      (failureStep s).reconnectTimer = true ∧
      (failureStep s).reconnectAttempts = s.reconnectAttempts + 1) ∧
    (¬ s.reconnectAttempts < effectiveMaxReconnects s.maxReconnectAttempts →
      (failureStep s).status = .error ∧
      (failureStep s).reconnectTimer = false ∧
      (failureStep s).reconnectAttempts = s.reconnectAttempts) := by
  unfold failureStep
  rw [fireReconnectTimer_pending s h2 true]
  have hA : ({ s with reconnectTimer := false } : StreamState).status
      = Status.reconnecting := h1
  rw [connect_proceeds { s with reconnectTimer := false }
    (by rw [hA]; decide) (by rw [hA]; decide)]
  set sB : StreamState :=
    { setStatus { s with reconnectTimer := false } .connecting with
        eventSource := true } with hsB
  have hBt : sB.reconnectTimer = false :=
    setStatus_reconnectTimer { s with reconnectTimer := false } .connecting
  have hBa : sB.reconnectAttempts = s.reconnectAttempts :=
    setStatus_attempts { s with reconnectTimer := false } .connecting
  have hBm : sB.maxReconnectAttempts = s.maxReconnectAttempts :=
    setStatus_max { s with reconnectTimer := false } .connecting
  obtain ⟨hm, hcont, hgive⟩ := handleError_transition sB
  refine ⟨hm.trans hBm, ?_, ?_⟩
  · intro hlt
    have hlt2 : sB.reconnectAttempts
        < effectiveMaxReconnects sB.maxReconnectAttempts := by
      rw [hBa, hBm]
      exact hlt
    have hres := hcont hBt hlt2
    exact ⟨hres.1, hres.2.1, by rw [hres.2.2, hBa]⟩
  · intro hge
    have hge2 : ¬ sB.reconnectAttempts
        < effectiveMaxReconnects sB.maxReconnectAttempts := by
      rw [hBa, hBm]
      exact hge
    have hres := hgive hge2
    exact ⟨hres.1, hres.2.1.trans hBt, hres.2.2.trans hBa⟩

theorem afterFailures_one (k : Nat) (hk : 1 ≤ k) :
    (afterFailures k 1).status = .reconnecting ∧
    (afterFailures k 1).reconnectTimer = true ∧
    (afterFailures k 1).reconnectAttempts = 1 ∧
    (afterFailures k 1).maxReconnectAttempts = k := by
  obtain ⟨hm, hcont, _⟩ :=
    handleError_transition (connect (initState k) true).state
  have hlt : (connect (initState k) true).state.reconnectAttempts
      < effectiveMaxReconnects
          (connect (initState k) true).state.maxReconnectAttempts := by
    show 0 < effectiveMaxReconnects k
    unfold effectiveMaxReconnects
    rw [if_neg (by omega)]
    omega
  have hres := hcont rfl hlt
  exact ⟨hres.1, hres.2.1, hres.2.2, hm⟩

theorem afterFailures_inv (k : Nat) (hk : 1 ≤ k) :
    ∀ n, 1 ≤ n → n ≤ k →
    (afterFailures k n).status = .reconnecting ∧
    (afterFailures k n).reconnectTimer = true ∧
    (afterFailures k n).reconnectAttempts = n ∧
    (afterFailures k n).maxReconnectAttempts = k := by
  intro n
  induction n with
  | zero =>
    intro h1 _
    exact absurd h1 (by omega)
  | succ m ih =>
    intro _ hle
    by_cases hm0 : m = 0
    · subst hm0
      exact afterFailures_one k hk
    · obtain ⟨hst, htm, hat, hmx⟩ := ih (by omega) (by omega)
      obtain ⟨Fm, Fc, _⟩ :=
        failureStep_from_reconnecting (afterFailures k m) hst htm
      have hlt : (afterFailures k m).reconnectAttempts
          < effectiveMaxReconnects (afterFailures k m).maxReconnectAttempts := by
        rw [hat, hmx]
        unfold effectiveMaxReconnects
        rw [if_neg (by omega)]
        omega
      have hres := Fc hlt
      exact ⟨hres.1, hres.2.1, hres.2.2.trans (congrArg (· + 1) hat),
        Fm.trans hmx⟩

theorem startHeartbeat_counters (s : StreamState) :
    (startHeartbeat s).messagesReceived = s.messagesReceived ∧
    (startHeartbeat s).messagesProcessed = s.messagesProcessed := by
  unfold startHeartbeat
  split <;> exact ⟨rfl, rfl⟩

theorem scheduleReconnect_counters (s : StreamState) :
    (scheduleReconnect s).messagesReceived = s.messagesReceived ∧
    (scheduleReconnect s).messagesProcessed = s.messagesProcessed := by
  unfold scheduleReconnect emitE
  dsimp only
  split
  · exact ⟨rfl, rfl⟩
  · exact ⟨setStatus_received s .reconnecting, setStatus_processed s .reconnecting⟩

theorem handleError_counters (s : StreamState) :
    (handleError s).messagesReceived = s.messagesReceived ∧
    (handleError s).messagesProcessed = s.messagesProcessed := by
  unfold handleError
  dsimp only
  split
  · constructor
    · rw [(scheduleReconnect_counters _).1]
      exact setStatus_received _ _
    · rw [(scheduleReconnect_counters _).2]
      exact setStatus_processed _ _
  · exact ⟨setStatus_received _ _, setStatus_processed _ _⟩

theorem connect_counters (s : StreamState) (ok : Bool) :
    ((connect s ok).state).messagesReceived = s.messagesReceived ∧
    ((connect s ok).state).messagesProcessed = s.messagesProcessed := by
  unfold connect
  dsimp only
  split
  · exact ⟨rfl, rfl⟩
  · split
    · exact ⟨setStatus_received _ _, setStatus_processed _ _⟩
    · constructor
      · rw [(handleError_counters _).1]
        exact setStatus_received _ _
      · rw [(handleError_counters _).2]
        exact setStatus_processed _ _

theorem openSucceeded_counters (s : StreamState) :
    (openSucceeded s).messagesReceived = s.messagesReceived ∧
    (openSucceeded s).messagesProcessed = s.messagesProcessed := by
  unfold openSucceeded emitE
  dsimp only
  constructor
  · rw [(startHeartbeat_counters _).1]
    exact setStatus_received _ _
  · rw [(startHeartbeat_counters _).2]
    exact setStatus_processed _ _

theorem disconnect_counters (s : StreamState) :
    (disconnect s).messagesReceived = s.messagesReceived ∧
    (disconnect s).messagesProcessed = s.messagesProcessed := by
  unfold disconnect emitE
  dsimp only
  exact ⟨setStatus_received _ _, setStatus_processed _ _⟩

theorem fireReconnectTimer_counters (s : StreamState) (ok : Bool) :
    ((fireReconnectTimer s ok)).messagesReceived = s.messagesReceived ∧
    ((fireReconnectTimer s ok)).messagesProcessed = s.messagesProcessed := by
  unfold fireReconnectTimer
  split
  · exact connect_counters _ ok
  · exact ⟨rfl, rfl⟩

theorem handleMessage_some_received (s : StreamState) (d : JVal)
    (now : String) (e : ℚ) :
    (handleMessage s (some d) now e).messagesReceived
      = s.messagesReceived + 1 := by
  unfold handleMessage
  dsimp only
  split
  · rfl
  · split <;> rfl

theorem handleMessage_some_processed (s : StreamState) (d : JVal)
    (now : String) (e : ℚ) (hd : d ≠ .null) :
    (handleMessage s (some d) now e).messagesProcessed
      = s.messagesProcessed + 1 := by
  unfold handleMessage
  dsimp only
  split
  · rfl
  · obtain ⟨ev, hev⟩ := legacyDecode_ok_of_ne_null hd now
    rw [hev]
    rfl

theorem handleMessage_some_processed_le (s : StreamState) (d : JVal)
    (now : String) (e : ℚ) :
    (handleMessage s (some d) now e).messagesProcessed
      ≤ s.messagesProcessed + 1 := by
  unfold handleMessage
  dsimp only
  split
  · exact le_refl _
  · split
    · exact Nat.le_succ _
    · exact le_refl _

theorem applyOp_counters_le (s : StreamState) (op : Op)
    (h : s.messagesProcessed ≤ s.messagesReceived) :
    (applyOp s op).messagesProcessed ≤ (applyOp s op).messagesReceived := by
  cases op with
  | message p now e =>
    cases p with
    | none => exact h
    | some d =>
      show (handleMessage s (some d) now e).messagesProcessed
        ≤ (handleMessage s (some d) now e).messagesReceived
      rw [handleMessage_some_received s d now e]
      have hp := handleMessage_some_processed_le s d now e
      omega
  | transportError =>
    show (handleError s).messagesProcessed ≤ (handleError s).messagesReceived
    rw [(handleError_counters s).1, (handleError_counters s).2]
    exact h
  | connectCall ok =>
    show ((connect s ok).state).messagesProcessed
      ≤ ((connect s ok).state).messagesReceived
    rw [(connect_counters s ok).1, (connect_counters s ok).2]
    exact h
  | openOk =>
    show (openSucceeded s).messagesProcessed
      ≤ (openSucceeded s).messagesReceived
    rw [(openSucceeded_counters s).1, (openSucceeded_counters s).2]
    exact h
  | disconnectCall =>
    show (disconnect s).messagesProcessed ≤ (disconnect s).messagesReceived
    rw [(disconnect_counters s).1, (disconnect_counters s).2]
    exact h
  | timerFire ok =>
    show (fireReconnectTimer s ok).messagesProcessed
      ≤ (fireReconnectTimer s ok).messagesReceived
    rw [(fireReconnectTimer_counters s ok).1,
        (fireReconnectTimer_counters s ok).2]
    exact h
  | subscribeCall c hh => exact h

theorem foldl_applyOp_counters (ops : List Op) : ∀ s : StreamState,
    s.messagesProcessed ≤ s.messagesReceived →
    (ops.foldl applyOp s).messagesProcessed
      ≤ (ops.foldl applyOp s).messagesReceived := by
  induction ops with
  | nil =>
    intro s h
    exact h
  | cons op rest ih =>
    intro s h
    exact ih _ (applyOp_counters_le s op h)

/-- C10, counterexample: the frame whose raw data parses to JSON `null` is
successfully parsed, so `messagesReceived` is incremented before dispatch,
but the dispatch path throws while legacy-decoding `null`, so
`messagesProcessed` is not incremented after dispatch — the error counter
is incremented instead; this refutes the per-frame mechanism stated by
the claim (every successfully parsed frame increments processed), while
the inequality invariant itself survives. -/
theorem processed_skipped_on_null_counterexample :
    (handleMessage (initState 5) (some JVal.null) "T" 0).messagesReceived
      = 1 ∧
    (handleMessage (initState 5) (some JVal.null) "T" 0).messagesProcessed
      = 0 ∧
    (handleMessage (initState 5) (some JVal.null) "T" 0).errorsCount = 1 :=
  ⟨rfl, rfl, rfl⟩

/-- C10 (amended): over every sequence of operations and inbound frames
from a fresh client, the invariant messagesProcessed ≤ messagesReceived
holds; a frame whose raw data fails to parse increments only the error
counter (neither received nor processed), and a successfully parsed frame
increments messagesReceived before dispatch; messagesProcessed is
incremented after dispatch for every parsed frame except JSON `null`,
whose legacy decode throws inside the dispatch path (handler exceptions
proper are caught, so they never block the processed increment). -/
theorem counters_invariant (k : Nat) (ops : List Op) (s : StreamState)
    (now : String) (e : ℚ) (d : JVal) :
    (runOps k ops).messagesProcessed ≤ (runOps k ops).messagesReceived ∧
    (handleMessage s none now e).errorsCount = s.errorsCount + 1 ∧
    (handleMessage s none now e).messagesReceived = s.messagesReceived ∧
    (handleMessage s none now e).messagesProcessed = s.messagesProcessed ∧
    (handleMessage s (some d) now e).messagesReceived
      = s.messagesReceived + 1 ∧
    (d ≠ .null →
      (handleMessage s (some d) now e).messagesProcessed
        = s.messagesProcessed + 1) :=
  ⟨foldl_applyOp_counters ops (initState k) (Nat.le_refl 0), rfl, rfl, rfl,
   handleMessage_some_received s d now e,
   fun hd => handleMessage_some_processed s d now e hd⟩

theorem counters_invariant_witness :
    (runOps 5 [Op.message (some (JVal.obj [])) "T" 0]).messagesProcessed
      ≤ (runOps 5 [Op.message (some (JVal.obj [])) "T" 0]).messagesReceived ∧
    (handleMessage (initState 5) none "T" 0).errorsCount
      = (initState 5).errorsCount + 1 ∧
    (handleMessage (initState 5) none "T" 0).messagesReceived
      = (initState 5).messagesReceived ∧
    (handleMessage (initState 5) none "T" 0).messagesProcessed
      = (initState 5).messagesProcessed ∧
    (handleMessage (initState 5) (some (JVal.obj [])) "T" 0).messagesReceived
      = (initState 5).messagesReceived + 1 ∧
    (handleMessage (initState 5) (some (JVal.obj [])) "T" 0).messagesProcessed
      = (initState 5).messagesProcessed + 1 := by
  have h := counters_invariant 5 [Op.message (some (JVal.obj [])) "T" 0]
    (initState 5) "T" 0 (JVal.obj [])
  exact ⟨h.1, h.2.1, h.2.2.1, h.2.2.2.1, h.2.2.2.2.1,
    h.2.2.2.2.2 (fun hc => nomatch hc)⟩

/-- C1, counterexample: with `maxReconnectAttempts = 1`, after exactly 1
consecutive open failure the client has already scheduled another
attempt — the status is `reconnecting` and a reconnect timer is pending —
so after K consecutive open failures it has not stopped scheduling and
the status is `reconnecting`, contrary to the claim; the give-up happens
only on failure K+1. -/
theorem reconnect_cap_at_max_counterexample :
    (afterFailures 1 1).status = .reconnecting ∧
    (afterFailures 1 1).reconnectTimer = true ∧
    (afterFailures 1 1).reconnectAttempts = 1 :=
  ⟨rfl, rfl, rfl⟩

/-- C1 (amended): for a configured maximum K with 1 ≤ K (a configured 0 is
falsy and falls back to 5), after K+1 consecutive open failures — the
initial attempt plus the K scheduled retries all failing — the client
stops scheduling further reconnect attempts: the status is `error` (not
`reconnecting`), no reconnect timer is pending so a timer firing is a
no-op, the attempt counter stands at K, and an explicit external
`connect()` call does resume by issuing a new underlying attempt. -/
theorem reconnect_gives_up_after_max_plus_one (k : Nat) (hk : 1 ≤ k) :
    (afterFailures k (k + 1)).status = .error ∧
    (afterFailures k (k + 1)).reconnectTimer = false ∧
    (afterFailures k (k + 1)).reconnectAttempts = k ∧
    fireReconnectTimer (afterFailures k (k + 1)) true = afterFailures k (k + 1) ∧
    (connect (afterFailures k (k + 1)) true).attempted = true := by
  obtain ⟨hst, htm, hat, hmx⟩ := afterFailures_inv k hk k hk (le_refl k)
  obtain ⟨_, _, Fg⟩ :=
    failureStep_from_reconnecting (afterFailures k k) hst htm
  have hge : ¬ (afterFailures k k).reconnectAttempts
      < effectiveMaxReconnects (afterFailures k k).maxReconnectAttempts := by
    rw [hat, hmx]
    unfold effectiveMaxReconnects
    rw [if_neg (by omega)]
    omega
  have hout := Fg hge
  have hstF : (afterFailures k (k + 1)).status = .error := hout.1
  have htmF : (afterFailures k (k + 1)).reconnectTimer = false := hout.2.1
  refine ⟨hstF, htmF, hout.2.2.trans hat, ?_, ?_⟩
  · unfold fireReconnectTimer
    rw [htmF]
    rfl
  · have hcond : ¬((afterFailures k (k + 1)).status = .connected ∨
        (afterFailures k (k + 1)).status = .connecting) := by
      rw [hstF]
      decide
    unfold connect
    rw [if_neg hcond]
    rfl

theorem reconnect_gives_up_witness :
    (afterFailures 2 3).status = .error ∧
    (afterFailures 2 3).reconnectTimer = false ∧
    (afterFailures 2 3).reconnectAttempts = 2 ∧
    fireReconnectTimer (afterFailures 2 3) true = afterFailures 2 3 ∧
    (connect (afterFailures 2 3) true).attempted = true :=
  reconnect_gives_up_after_max_plus_one 2 (by omega)

/-- C5, counterexample: the parsed value JSON `null` mismatches the native
shape and falls through to legacy decoding, but legacy decoding raises a
`TypeError` there (reading `null.type`) instead of decoding; the outer
`catch` in `handleMessage` absorbs it as an error, so the mismatch does
raise a decoding exception, refuting the never-raises part of the claim. -/
theorem null_frame_legacy_decode_counterexample :
    isCedarEvent JVal.null = false ∧
    legacyDecode "2024-01-01T00:00:00.000Z" JVal.null = Except.error () ∧
    (handleMessage (initState 5) (some JVal.null) "2024-01-01T00:00:00.000Z"
        0).errorsCount = 1 ∧
    (handleMessage (initState 5) (some JVal.null) "2024-01-01T00:00:00.000Z"
        0).messagesProcessed = 0 :=
  ⟨rfl, rfl, rfl, rfl⟩

/-- C5 (amended): a parsed inbound message is decoded as the native shape
iff it has string-typed `type` and `channel`, a non-undefined payload
(`data` key) and a string-typed `timestamp` — `isCedarEvent` agrees
exactly with the spec criterion `nativeShapeSpec`.  Every mismatched value
other than JSON `null` falls through to legacy decoding, which completes
without raising; a parsed `null` also falls through to legacy decoding but
raises an exception there, which the message handler catches. -/
theorem native_shape_detection (d : JVal) (now : String) :
    isCedarEvent d = nativeShapeSpec d ∧
    (d ≠ .null → ∃ ev, legacyDecode now d = .ok ev) ∧
    legacyDecode now JVal.null = .error () :=
  ⟨isCedarEvent_eq_spec d, fun h => legacyDecode_ok_of_ne_null h now, rfl⟩

theorem native_shape_detection_witness :
    isCedarEvent (JVal.bool true) = nativeShapeSpec (JVal.bool true) ∧
    (∃ ev, legacyDecode "2024-01-01T00:00:00.000Z" (JVal.bool true)
        = .ok ev) ∧
    legacyDecode "2024-01-01T00:00:00.000Z" JVal.null = .error () :=
  ⟨(native_shape_detection (JVal.bool true) "2024-01-01T00:00:00.000Z").1,
   (native_shape_detection (JVal.bool true) "2024-01-01T00:00:00.000Z").2.1
     (fun h => nomatch h),
   (native_shape_detection (JVal.bool true) "2024-01-01T00:00:00.000Z").2.2⟩

/-- C6, counterexample: the legacy frame `dGen` (unrecognized type, with an
explicit inbound timestamp) is routed to channel `system` but receives a
freshly synthesized timestamp even though the inbound message has one, and
its `source` is tagged `legacy-websocket`, not `legacy`; both refute the
only-if-lacking timestamp stamping and the `legacy` source tag of the
claim. -/
theorem legacy_timestamp_source_counterexample :
    isCedarEvent dGen = false ∧
    fieldOf dGen "timestamp" = some (.str "2020-01-01T00:00:00Z") ∧
    legacyDecode "2024-06-01T00:00:00Z" dGen =
      .ok { type := .str "system_status", channel := "system",
            data := some dGen, timestamp := .str "2024-06-01T00:00:00Z",
            source := some (.str "legacy-websocket") } ∧
    "2024-06-01T00:00:00Z" ≠ "2020-01-01T00:00:00Z" ∧
    "legacy-websocket" ≠ "legacy" :=
  ⟨rfl, rfl, rfl, by decide, by decide⟩

/-- C6 (amended): every legacy frame other than JSON `null` decodes to an
event on the fixed channel mapping (`transaction` to `transactions`,
`notification_popup` to `notifications`, anything else to `system`) with
`source` tagged `legacy-websocket`; the timestamp is synthesized whenever
the inbound message lacks one, the generic (`system`) branch synthesizes
it unconditionally, and only the two recognized branches keep a truthy
inbound timestamp. -/
theorem legacy_decode_mapping (now : String) (d : JVal) (hd : d ≠ .null) :
    ∃ ev, legacyDecode now d = .ok ev ∧
      ev.channel = legacyChannelOf d ∧
      ev.source = some (.str "legacy-websocket") ∧
      (fieldOf d "timestamp" = none → ev.timestamp = .str now) ∧
      (legacyChannelOf d = "system" → ev.timestamp = .str now) ∧
      (∀ t, fieldOf d "timestamp" = some t → jsTruthy t = true →
        legacyChannelOf d ≠ "system" → ev.timestamp = t) := by
  unfold legacyDecode legacyChannelOf
  rw [jvIsNull_false_of_ne hd]
  simp only [Bool.false_eq_true, if_false]
  by_cases h1 : isTypeEq d "transaction" = true
  · simp only [h1, if_true]
    refine ⟨_, rfl, rfl, rfl, ?_, ?_, ?_⟩
    · intro hnone
      unfold jsOr
      rw [hnone]
    · intro hsys
      exact absurd hsys (by decide)
    · intro t ht htruthy _
      unfold jsOr
      rw [ht]
      dsimp only
      rw [htruthy]
      rfl
  · simp only [h1, if_false]
    by_cases h2 : isTypeEq d "notification_popup" = true
    · simp only [h2, if_true]
      refine ⟨_, rfl, rfl, rfl, ?_, ?_, ?_⟩
      · intro hnone
        unfold jsOr
        rw [hnone]
      · intro hsys
        exact absurd hsys (by decide)
      · intro t ht htruthy _
        unfold jsOr
        rw [ht]
        dsimp only
        rw [htruthy]
        rfl
    · simp only [h2, if_false]
      refine ⟨_, rfl, rfl, rfl, fun _ => rfl, fun _ => rfl, ?_⟩
      intro t _ _ hne
      exact absurd rfl hne

theorem runHandlers_eq_map (hs : List Handler) (e : CedarEv) :
    runHandlers hs e = hs.map (fun h => h e) := by
  induction hs with
  | nil => rfl
  | cons h rest ih =>
    unfold runHandlers
    rw [ih]
    rfl

theorem lookup_addToChannel_same (m : ChannelMap) (c : String)
    (h : Handler) :
    lookupChannel (addToChannel m c h) c
      = some ((lookupChannel m c).getD [] ++ [h]) := by
  induction m with
  | nil => simp [addToChannel, lookupChannel]
  | cons p rest ih =>
    obtain ⟨cHead, hsHead⟩ := p
    by_cases hc : cHead = c
    · simp [addToChannel, lookupChannel, hc]
    · simp [addToChannel, lookupChannel, hc, ih]

theorem subscribe_foldl (s : StreamState) (c : String)
    (hs : List Handler) :
    (hs.foldl (fun st h => subscribe st c h) s).channelHandlers
      = hs.foldl (fun m h => addToChannel m c h) s.channelHandlers := by
  induction hs generalizing s with
  | nil => rfl
  | cons h rest ih =>
    simp only [List.foldl]
    rw [ih (subscribe s c h)]
    rfl

theorem lookup_foldl_add (m : ChannelMap) (c : String)
    (hs : List Handler) :
    (lookupChannel (hs.foldl (fun mm h => addToChannel mm c h) m) c).getD []
      = (lookupChannel m c).getD [] ++ hs := by
  induction hs generalizing m with
  | nil => simp
  | cons h rest ih =>
    simp only [List.foldl]
    rw [ih (addToChannel m c h), lookup_addToChannel_same]
    simp

theorem recordLatency_eq (h : List ℚ) (x : ℚ) (hh : h.length ≤ 100) :
    recordLatency h x = (h ++ [x]).drop (h.length + 1 - 100) := by
  unfold recordLatency
  dsimp only
  by_cases hc : 100 < (h ++ [x]).length
  · rw [if_pos hc]
    have hlen : h.length = 100 := by
      rw [List.length_append] at hc
      simp at hc
      omega
    rw [hlen]
  · rw [if_neg hc]
    have hz : h.length + 1 - 100 = 0 := by
      rw [List.length_append] at hc
      simp at hc
      omega
    rw [hz, List.drop_zero]

theorem recordLatency_length (h : List ℚ) (x : ℚ) (hh : h.length ≤ 100) :
    (recordLatency h x).length ≤ 100 := by
  rw [recordLatency_eq h x hh, List.length_drop, List.length_append]
  simp
  omega

theorem foldl_recordLatency (l : List ℚ) : ∀ h : List ℚ, h.length ≤ 100 →
    List.foldl recordLatency h l = (h ++ l).drop ((h ++ l).length - 100) := by
  induction l with
  | nil =>
    intro h hh
    simp [Nat.sub_eq_zero_of_le hh]
  | cons x l ih =>
    intro h hh
    simp only [List.foldl]
    rw [ih (recordLatency h x) (recordLatency_length h x hh),
        recordLatency_eq h x hh]
    have hc : h.length + 1 - 100 ≤ (h ++ [x]).length := by
      rw [List.length_append]
      simp
      omega
    rw [← List.drop_append_of_le_length hc, List.drop_drop]
    have harr : (h ++ [x]) ++ l = h ++ x :: l := by simp
    rw [harr]
    refine congrArg (fun n => List.drop n (h ++ x :: l)) ?_
    simp [List.length_drop]
    omega

/-- C8: starting from the empty history, recording any sequence of latency
samples leaves exactly the most recent 100 of them, oldest evicted first
(the history is the suffix of the submitted samples), the buffer never
exceeds 100 entries, the empty buffer reports average 0 with no division,
and the reported average is the arithmetic mean of the current buffer —
hence after more than 100 samples it reflects only the most recent 100. -/
theorem latency_window_mean (l : List ℚ) :
    List.foldl recordLatency [] l = l.drop (l.length - 100) ∧
    (List.foldl recordLatency [] l).length ≤ 100 ∧
    calculateAverageLatency [] = 0 ∧
    calculateAverageLatency (List.foldl recordLatency [] l)
      = calculateAverageLatency (l.drop (l.length - 100)) := by
  have hmain := foldl_recordLatency l [] (by simp)
  rw [List.nil_append] at hmain
  refine ⟨hmain, ?_, rfl, by rw [hmain]⟩
  rw [hmain, List.length_drop]
  omega

/-- C2: for every channel and every list of handlers registered on it in
order (duplicates permitted), dispatching one event on that channel
produces exactly one invocation per registered handler, in registration
order, each applied to that event: the result list is the pointwise image
of the handler list, so it has one entry per handler even when some
handlers throw (an `Except.error` entry records the caught exception while
every later handler still runs), and the dispatch loop is a total
function — it cannot crash. -/
theorem dispatch_invokes_all_in_order (k : Nat) (hs : List Handler)
    (c : String) (e : CedarEv) (hc : e.channel = c) :
    (processCedarEvent (hs.foldl (fun st h => subscribe st c h) (initState k))
        e).2 = hs.map (fun h => h e) ∧
    ((processCedarEvent
        (hs.foldl (fun st h => subscribe st c h) (initState k)) e).2).length
      = hs.length := by
  have hlook :
      (lookupChannel
        ((hs.foldl (fun st h => subscribe st c h) (initState k)).channelHandlers)
        e.channel).getD [] = hs := by
    rw [hc, subscribe_foldl, lookup_foldl_add]
    rfl
  constructor
  · unfold processCedarEvent
    rw [hlook, runHandlers_eq_map]
  · unfold processCedarEvent
    rw [hlook, runHandlers_eq_map]
    exact List.length_map hs _

theorem dispatch_invokes_all_in_order_witness :
    (processCedarEvent
        (List.foldl (fun st h => subscribe st "notifications" h) (initState 5)
          [hOk, hBoom, hOk]) eNotif).2
      = [Except.ok (), Except.error "handler exploded", Except.ok ()] ∧
    ((processCedarEvent
        (List.foldl (fun st h => subscribe st "notifications" h) (initState 5)
          [hOk, hBoom, hOk]) eNotif).2).length = 3 :=
  dispatch_invokes_all_in_order 5 [hOk, hBoom, hOk] "notifications" eNotif rfl

theorem legacy_decode_mapping_witness :
    ∃ ev, legacyDecode "2024-06-01T00:00:00Z" dTxn = .ok ev ∧
      ev.channel = legacyChannelOf dTxn ∧
      ev.source = some (.str "legacy-websocket") ∧
      (fieldOf dTxn "timestamp" = none → ev.timestamp
        = .str "2024-06-01T00:00:00Z") ∧
      (legacyChannelOf dTxn = "system" → ev.timestamp
        = .str "2024-06-01T00:00:00Z") ∧
      (∀ t, fieldOf dTxn "timestamp" = some t → jsTruthy t = true →
        legacyChannelOf dTxn ≠ "system" → ev.timestamp = t) :=
  legacy_decode_mapping "2024-06-01T00:00:00Z" dTxn (fun h => nomatch h)

end CedarStream
